import Mathlib

/-!
Shallow embedding of `src/main.js` of the business-sales-research-tool
repository, together with proofs about the spec's claims.

Modelling conventions:
* JavaScript field values (strings, numbers, `null`/`undefined`) are
  modelled by `JVal`; JS truthiness by `truthy`; `a || b` by `jor`.
* JS numbers are modelled by `ℚ`; `NaN` is modelled by `none` in
  `Option ℚ` wherever it can arise (only via `parseFloat`/`parseInt`).
* A JS `Map` in insertion order is modelled by a `List` whose `set`
  operation (`mapSet`) replaces in place on an existing key and appends
  on a fresh key, exactly as `Map.prototype.set` behaves.
* File-system effects (the per-place detail cache) are modelled by
  explicit state passing (`DetailCache`); network calls by an oracle
  function together with a call counter.
-/

namespace BizTool

/-- A JavaScript value as it occurs in the records handled by the tool:
a string, a number, or a missing value (`null`/`undefined`). -/
inductive JVal where
  | vstr (s : String)
  | vnum (q : ℚ)
  | vnull
deriving DecidableEq, Repr

/-- JavaScript truthiness of a `JVal`: the empty string, the number 0 and
`null`/`undefined` are falsy, everything else is truthy. -/
def truthy : JVal → Bool
  | JVal.vstr s => decide (s ≠ "")
  | JVal.vnum q => decide (q ≠ 0)
  | JVal.vnull => false

/-- The JavaScript `a || b` operator on `JVal`. -/
def jor (a b : JVal) : JVal := if truthy a then a else b

/-- A raw place as returned by the text-search endpoint
(field mask: id, displayName, formattedAddress, rating, userRatingCount).
`displayNameText` models the JS access `place.displayName?.text`. -/
structure Place where
  id : String
  displayNameText : JVal
  formattedAddress : JVal
  rating : JVal
  userRatingCount : JVal
deriving DecidableEq, Repr

/-- A search-cache entry / page response: `{places, nextPageToken}`. -/
structure PageEntry where
  places : List Place
  nextPageToken : Option String
deriving DecidableEq, Repr

/-- JS `Map.prototype.set` on an insertion-ordered association list keyed
by `Place.id`: replace in place when the key is already present, append
otherwise (a JS `Map` keeps the original insertion position when a key is
overwritten). -/
def mapSet (m : List Place) (p : Place) : List Place :=
  match m with
  | [] => [p]
  | q :: rest => if q.id == p.id then p :: rest else q :: mapSet rest p

/-- `mergeBusinessData` (src/main.js lines 346-363): build a `Map` from
place id to place, inserting every cached place and then every incoming
place, and take `nextPageToken` from the incoming data. -/
def mergeBusinessData (cachedData newData : PageEntry) : PageEntry :=
  { places := newData.places.foldl mapSet (cachedData.places.foldl mapSet [])
    nextPageToken := newData.nextPageToken }

/-- The id sequence of a place list. -/
def keysOf (m : List Place) : List String := m.map Place.id

/-- First place with the given id, modelling `Map.prototype.get`. -/
def lookupId (m : List Place) (i : String) : Option Place :=
  m.find? (fun q => q.id == i)

/-- JS falsiness of a `nextPageToken` value (`!pageToken`):
absent or the empty string. -/
def jsFalsy : Option String → Bool
  | none => true
  | some s => decide (s = "")

/-- The body of `data.places.forEach` in `main` (src/main.js lines 39-44):
add the place to the accumulator only if its id is not yet present. -/
def addUnique (acc : List Place) (p : Place) : List Place :=
  if acc.any (fun q => q.id == p.id) then acc else acc ++ [p]

/-- Absorb a whole response's places into the accumulator. -/
def absorb (acc : List Place) (ps : List Place) : List Place :=
  ps.foldl addUnique acc

/-- The top-level fetch loop of `main` (src/main.js lines 36-55), run
against a script of page responses (the successive results of
`getBusinessData`).  Returns the final accumulator together with the
number of responses consumed (= fetches issued).  After absorbing a
response the loop stops when the token is falsy or the unique count has
reached 60; an empty script means no fetch could be issued. -/
def fetchLoop : List PageEntry → List Place → List Place × Nat
  | [], acc => (acc, 0)
  | r :: rs, acc =>
    let acc2 := absorb acc r.places
    if jsFalsy r.nextPageToken || decide (60 ≤ acc2.length) then (acc2, 1)
    else
      let rest := fetchLoop rs acc2
      (rest.1, rest.2 + 1)

/-- A place detail as returned by the detail endpoint (field mask: id,
displayName, formattedAddress, internationalPhoneNumber, websiteUri,
rating, userRatingCount).  `displayNameText` models `d.displayName?.text`. -/
structure PlaceDetails where
  displayNameText : JVal
  formattedAddress : JVal
  internationalPhoneNumber : JVal
  websiteUri : JVal
  rating : JVal
  userRatingCount : JVal
deriving DecidableEq, Repr

/-- One character of the allow-list character class `[a-zA-Z0-9_-]` of the
regular expression in `getPlaceDetails` (src/main.js line 167). -/
def allowedIdChar (c : Char) : Bool :=
  decide ('a' ≤ c ∧ c ≤ 'z') || decide ('A' ≤ c ∧ c ≤ 'Z') ||
    decide ('0' ≤ c ∧ c ≤ '9') || decide (c = '_') || decide (c = '-')

/-- The test `/^[a-zA-Z0-9_-]+$/.test(placeId)`: at least one character,
all from the allow-list. -/
def validPlaceId (s : String) : Bool :=
  decide (s.data ≠ []) && s.data.all allowedIdChar

/-- `getPlaceDetails` (src/main.js lines 166-187) against a network oracle
`net` (which yields the detail on success and `none` on any HTTP/API
failure).  Returns the outcome together with the number of network calls
issued: an id that fails validation is rejected locally with no call. -/
def getPlaceDetails (net : String → Option PlaceDetails)
    (placeId : String) : Option PlaceDetails × Nat :=
  if validPlaceId placeId then (net placeId, 1) else (none, 0)

/-- A normalized business record as built by `cleanBusinessData`. -/
structure NormalizedRecord where
  name : JVal
  address : JVal
  phone : JVal
  website : JVal
  rating : JVal
  userRatingsTotal : JVal
  placeId : String
deriving DecidableEq, Repr

/-- Optional-chaining access `placeDetails?.f`: `undefined` when the
details are `null`. -/
def dget (pd : Option PlaceDetails) (f : PlaceDetails → JVal) : JVal :=
  match pd with
  | none => JVal.vnull
  | some d => f d

/-- The record construction returned by `cleanBusinessData`
(src/main.js lines 211-226); `a || b || c` is the left-associated
`jor (jor a b) c`. -/
def cleanFields (business : Place) (placeDetails : Option PlaceDetails) :
    NormalizedRecord :=
  { name := jor (jor (dget placeDetails PlaceDetails.displayNameText)
      business.displayNameText) (JVal.vstr "N/A")
    address := jor (jor (dget placeDetails PlaceDetails.formattedAddress)
      business.formattedAddress) (JVal.vstr "N/A")
    phone := jor (dget placeDetails PlaceDetails.internationalPhoneNumber)
      (JVal.vstr "N/A")
    website := jor (dget placeDetails PlaceDetails.websiteUri)
      (JVal.vstr "N/A")
    rating := jor (jor (dget placeDetails PlaceDetails.rating)
      business.rating) (JVal.vstr "N/A")
    userRatingsTotal := jor (jor (dget placeDetails PlaceDetails.userRatingCount)
      business.userRatingCount) (JVal.vstr "N/A")
    placeId := business.id }

/-- The per-place detail cache directory: a file per place id, holding
either a `PlaceDetails` JSON object or the JSON literal `null`
(so `some none` models a file whose contents parse to `null`). -/
abbrev DetailCache := String → Option (Option PlaceDetails)

/-- Result of one `cleanBusinessData` call: the record built, the detail
cache afterwards, and the number of network calls issued. -/
structure CleanResult where
  record : NormalizedRecord
  cache : DetailCache
  netCalls : Nat

/-- `cleanBusinessData` (src/main.js lines 195-227): read the per-id cache
file when it exists; otherwise call `getPlaceDetails` and write its result
to the cache file unconditionally (a `null` result is written as the JSON
literal `null`). -/
def cleanBusinessData (cache : DetailCache)
    (net : String → Option PlaceDetails) (business : Place) : CleanResult :=
  match cache business.id with
  | some pd => { record := cleanFields business pd, cache := cache, netCalls := 0 }
  | none =>
    let res := getPlaceDetails net business.id
    { record := cleanFields business res.1
      cache := fun k => if k = business.id then some res.1 else cache k
      netCalls := res.2 }

/-- Numeric value of a list of ASCII digits. -/
def digitsVal (cs : List Char) : Nat :=
  cs.foldl (fun a c => 10 * a + (c.toNat - 48)) 0

/-- Optional leading sign of a numeric literal. -/
def parseSign : List Char → Int × List Char
  | '-' :: rest => (-1, rest)
  | '+' :: rest => (1, rest)
  | cs => (1, cs)

/-- JS `parseFloat` on the character sequence of a string, restricted to
plain decimal literals (optional sign, integer digits, optional fractional
digits); `none` models `NaN`.  Exponents, hexadecimal forms, `Infinity`
and leading whitespace do not occur in the data handled by the tool and
are not modelled. -/
def parseFloatChars (cs : List Char) : Option ℚ :=
  let sr := parseSign cs
  let intPart := sr.2.takeWhile Char.isDigit
  let rest := sr.2.dropWhile Char.isDigit
  let fracPart :=
    match rest with
    | '.' :: r2 => r2.takeWhile Char.isDigit
    | _ => []
  if intPart = [] ∧ fracPart = [] then none
  else
    some ((sr.1 : ℚ) *
      ((digitsVal intPart : ℚ) + (digitsVal fracPart : ℚ) / (10 : ℚ) ^ fracPart.length))

/-- JS `parseInt` (radix 10) on the character sequence of a string:
optional sign followed by the longest digit run; `none` models `NaN`. -/
def parseIntChars (cs : List Char) : Option Int :=
  let sr := parseSign cs
  let ds := sr.2.takeWhile Char.isDigit
  if ds = [] then none else some (sr.1 * (digitsVal ds : Int))

/-- Truncation of a rational toward zero, as JS number-to-integer
conversion behaves inside `parseInt` of a number. -/
def jsTrunc (q : ℚ) : Int := Int.tdiv q.num (q.den : Int)

/-- JS `parseFloat` applied to a `JVal` argument. -/
def parseFloatJS : JVal → Option ℚ
  | JVal.vnum q => some q
  | JVal.vstr s => parseFloatChars s.data
  | JVal.vnull => none

/-- JS `parseInt` applied to a `JVal` argument. -/
def parseIntJS : JVal → Option Int
  | JVal.vnum q => some (jsTrunc q)
  | JVal.vstr s => parseIntChars s.data
  | JVal.vnull => none

/-- The score computation of `scoreBusiness` (src/main.js lines 235-257),
step by step in source order; `none` models a `NaN` score, which can only
arise from `parseFloat` of an unparseable rating. -/
def scoreVal (business : NormalizedRecord) : Option ℚ :=
  let s0 : Option ℚ := some 0
  let s1 : Option ℚ :=
    if truthy business.website ∧ business.website ≠ JVal.vstr "N/A" then
      s0.map (fun x => x + 2)
    else s0
  let s2 : Option ℚ :=
    if truthy business.phone ∧ business.phone ≠ JVal.vstr "N/A" then
      s1.map (fun x => x + 1)
    else s1
  let s3 : Option ℚ :=
    if truthy business.rating ∧ business.rating ≠ JVal.vstr "N/A" then
      match parseFloatJS business.rating with
      | some r => s2.map (fun x => x + r)
      | none => none
    else s2
  if truthy business.userRatingsTotal ∧
      business.userRatingsTotal ≠ JVal.vstr "N/A" then
    match parseIntJS business.userRatingsTotal with
    | some n =>
      if 100 < n then s3.map (fun x => x + 2)
      else if 50 < n then s3.map (fun x => x + 1)
      else s3
    | none => s3
  else s3

/-- A normalized record together with the added `score` field. -/
structure ScoredRecord extends NormalizedRecord where
  score : Option ℚ
deriving DecidableEq, Repr

/-- `scoreBusiness` (src/main.js lines 235-257): return
`{...business, score}`. -/
def scoreBusiness (business : NormalizedRecord) : ScoredRecord :=
  { toNormalizedRecord := business, score := scoreVal business }

/-- Website contribution to the score (+2 when truthy and not the sentinel). -/
def webBonus (b : NormalizedRecord) : ℚ :=
  if truthy b.website ∧ b.website ≠ JVal.vstr "N/A" then 2 else 0

/-- Phone contribution to the score (+1 when truthy and not the sentinel). -/
def phoneBonus (b : NormalizedRecord) : ℚ :=
  if truthy b.phone ∧ b.phone ≠ JVal.vstr "N/A" then 1 else 0

/-- Ratings-count contribution to the score (+2 above 100, +1 above 50). -/
def urtBonus (b : NormalizedRecord) : ℚ :=
  if truthy b.userRatingsTotal ∧ b.userRatingsTotal ≠ JVal.vstr "N/A" then
    match parseIntJS b.userRatingsTotal with
    | some n => if 100 < n then 2 else if 50 < n then 1 else 0
    | none => 0
  else 0

/-- Rating contribution to the score: the parsed rating when the rating
branch is taken (`none` = `NaN` when it does not parse), 0 otherwise. -/
def ratingOpt (b : NormalizedRecord) : Option ℚ :=
  if truthy b.rating ∧ b.rating ≠ JVal.vstr "N/A" then parseFloatJS b.rating
  else some 0

/-- JS `String.prototype.startsWith`. -/
def strStartsWith (s p : String) : Bool := p.data.isPrefixOf s.data

/-- JS `String.prototype.substring(n)`: drop the first `n` characters. -/
def strDrop (n : Nat) (s : String) : String := String.mk (s.data.drop n)

/-- An ASCII whitespace character, as removed by JS
`String.prototype.trim` on the phone strings handled here. -/
def isWhite (c : Char) : Bool :=
  decide (c = ' ') || decide (c = '\t') || decide (c = '\n') || decide (c = '\r')

/-- JS `String.prototype.trim`: strip whitespace from both ends. -/
def strTrim (s : String) : String :=
  String.mk (((s.data.dropWhile isWhite).reverse.dropWhile isWhite).reverse)

/-- The phone cell mapping of `exportToGoogleSheets`
(src/main.js lines 313-315):
`phone.startsWith(litPlusOne) ? phone.substring(3).trim() : phone`
where `litPlusOne` is the two-character literal plus-one. -/
def exportPhone (phone : String) : String :=
  if strStartsWith phone "+1" then strTrim (strDrop 3 phone) else phone

/-! Concrete inputs used by witnesses and counterexamples. -/

/-- A raw place with a given id and no other data. -/
def bareRaw (i : String) : Place :=
  { id := i, displayNameText := JVal.vnull, formattedAddress := JVal.vnull
    rating := JVal.vnull, userRatingCount := JVal.vnull }

/-- The all-sentinel normalized record. -/
def sentinelRecord : NormalizedRecord :=
  { name := JVal.vstr "N/A", address := JVal.vstr "N/A"
    phone := JVal.vstr "N/A", website := JVal.vstr "N/A"
    rating := JVal.vstr "N/A", userRatingsTotal := JVal.vstr "N/A"
    placeId := "p0" }

/-- The example record of the spec: website sentinel, a phone, rating
4.5 as a string, 120 user ratings as a string. -/
def exampleRecord : NormalizedRecord :=
  { sentinelRecord with
    phone := JVal.vstr "+1 555-1212"
    rating := JVal.vstr "4.5"
    userRatingsTotal := JVal.vstr "120" }

/-- A place list with 61 pairwise distinct ids (`"a"`, `"aa"`, ...). -/
def manyPlaces : List Place :=
  (List.range 61).map (fun k => bareRaw (String.mk (List.replicate (k + 1) 'a')))

/-- A single page response carrying 61 distinct places and no token. -/
def bigResponse : PageEntry :=
  { places := manyPlaces, nextPageToken := none }

/-- A small response with one place and a further page token. -/
def pageEx1 : PageEntry :=
  { places := [bareRaw "a"], nextPageToken := some "t" }

/-- A small final response with no token. -/
def pageEx2 : PageEntry :=
  { places := [], nextPageToken := none }

/-- A raw place carrying a search-sourced rating. -/
def rawWithRating (i r : String) : Place :=
  { bareRaw i with rating := JVal.vstr r }

/-- A detail record with all fields missing. -/
def bareDetail : PlaceDetails :=
  { displayNameText := JVal.vnull, formattedAddress := JVal.vnull
    internationalPhoneNumber := JVal.vnull, websiteUri := JVal.vnull
    rating := JVal.vnull, userRatingCount := JVal.vnull }

/-- A detail record whose rating is the literal sentinel string. -/
def sentinelDetail : PlaceDetails :=
  { bareDetail with rating := JVal.vstr "N/A" }

/-- A detail record whose rating is the string 4.2. -/
def detailEx : PlaceDetails :=
  { bareDetail with rating := JVal.vstr "4.2" }

/-- A cached page entry used by the merge witness. -/
def cachedEx : PageEntry :=
  { places := [bareRaw "a", rawWithRating "b" "3.0"], nextPageToken := some "x" }

/-- An incoming page used by the merge witness. -/
def incomingEx : PageEntry :=
  { places := [rawWithRating "b" "4.0", bareRaw "c"], nextPageToken := none }

/-! ## Supporting lemmas -/

theorem jor_of_truthy {a : JVal} (b : JVal) (h : truthy a = true) : jor a b = a := by
  simp [jor, h]

theorem jor_of_falsy {a : JVal} (b : JVal) (h : truthy a = false) : jor a b = b := by
  simp [jor, h]

theorem jor_vnull (b : JVal) : jor JVal.vnull b = b := rfl

theorem keysOf_nil : keysOf [] = [] := rfl

theorem keysOf_cons (p : Place) (ps : List Place) :
    keysOf (p :: ps) = p.id :: keysOf ps := rfl

theorem keysOf_append (ps qs : List Place) :
    keysOf (ps ++ qs) = keysOf ps ++ keysOf qs := by
  simp [keysOf]

theorem lookupId_nil (i : String) : lookupId [] i = none := rfl

theorem lookupId_cons (q : Place) (rest : List Place) (i : String) :
    lookupId (q :: rest) i = if q.id = i then some q else lookupId rest i := by
  by_cases h : q.id = i
  · rw [if_pos h, lookupId, List.find?_cons_of_pos _ (by simpa using h)]
  · rw [if_neg h, lookupId, List.find?_cons_of_neg _ (by simpa using h), lookupId]

theorem lookupId_eq_none_of_not_mem {m : List Place} {i : String}
    (h : i ∉ keysOf m) : lookupId m i = none := by
  rw [lookupId, List.find?_eq_none]
  intro q hq hbeq
  exact h (by
    rw [keysOf, List.mem_map]
    exact ⟨q, hq, beq_iff_eq.mp hbeq⟩)

theorem mapSet_of_not_mem {m : List Place} {p : Place}
    (h : p.id ∉ keysOf m) : mapSet m p = m ++ [p] := by
  induction m with
  | nil => rfl
  | cons q rest ih =>
    rw [keysOf_cons, List.mem_cons] at h
    push_neg at h
    rw [mapSet, if_neg (by simpa using Ne.symm h.1), ih h.2]
    rfl

theorem keysOf_mapSet (m : List Place) (p : Place) :
    keysOf (mapSet m p)
      = if p.id ∈ keysOf m then keysOf m else keysOf m ++ [p.id] := by
  induction m with
  | nil => rfl
  | cons q rest ih =>
    rw [mapSet]
    by_cases hq : q.id = p.id
    · simp [hq, keysOf_cons]
    · rw [if_neg (by simpa using hq), keysOf_cons, keysOf_cons, ih]
      by_cases hp : p.id ∈ keysOf rest <;>
        simp [hp, Ne.symm hq]

theorem lookupId_mapSet (m : List Place) (p : Place) (i : String) :
    lookupId (mapSet m p) i = if i = p.id then some p else lookupId m i := by
  induction m with
  | nil =>
    rw [mapSet, lookupId_cons, lookupId_nil]
    by_cases h : i = p.id
    · rw [if_pos h.symm, if_pos h]
    · rw [if_neg (show ¬ p.id = i from fun he => h he.symm), if_neg h]
  | cons q rest ih =>
    rw [mapSet]
    by_cases hq : q.id = p.id
    · rw [if_pos (by simpa using hq), lookupId_cons, lookupId_cons]
      by_cases hi : i = p.id
      · rw [if_pos hi.symm, if_pos hi]
      · rw [if_neg (show ¬ p.id = i from fun he => hi he.symm), if_neg hi,
          if_neg (show ¬ q.id = i from fun he => hi (he.symm.trans hq))]
    · rw [if_neg (by simpa using hq), lookupId_cons, lookupId_cons, ih]
      by_cases hi : i = p.id
      · rw [if_pos hi, if_pos hi,
          if_neg (show ¬ q.id = i from fun he => hq (he.trans hi))]
      · rw [if_neg hi, if_neg hi]

theorem mapSet_eq_self {m : List Place} {p : Place}
    (hnd : (keysOf m).Nodup) (hp : p ∈ m) : mapSet m p = m := by
  induction m with
  | nil => cases hp
  | cons q rest ih =>
    rw [keysOf_cons, List.nodup_cons] at hnd
    rw [mapSet]
    rcases List.mem_cons.mp hp with he | hm
    · rw [he, if_pos (by simp)]
    · have hne : q.id ≠ p.id := by
        intro he
        exact hnd.1 (by
          rw [he, keysOf, List.mem_map]
          exact ⟨p, hm, rfl⟩)
      rw [if_neg (by simpa using hne), ih hnd.2 hm]

theorem foldl_mapSet_append : ∀ (ps acc : List Place),
    (∀ i ∈ keysOf ps, i ∉ keysOf acc) → (keysOf ps).Nodup →
    ps.foldl mapSet acc = acc ++ ps := by
  intro ps
  induction ps with
  | nil => intro acc _ _; simp
  | cons p rest ih =>
    intro acc hd hnd
    rw [keysOf_cons, List.nodup_cons] at hnd
    rw [List.foldl_cons,
      mapSet_of_not_mem (hd p.id (by rw [keysOf_cons]; exact List.mem_cons_self _ _)),
      ih (acc ++ [p]) ?_ hnd.2]
    · simp
    · intro i hi
      rw [keysOf_append]
      rintro hmem
      rcases List.mem_append.mp hmem with h1 | h1
      · exact hd i (by rw [keysOf_cons]; exact List.mem_cons_of_mem _ hi) h1
      · simp only [keysOf, List.map_cons, List.map_nil, List.mem_singleton] at h1
        exact hnd.1 (h1 ▸ hi)

theorem foldl_mapSet_self : ∀ (qs m : List Place),
    (keysOf m).Nodup → (∀ q ∈ qs, q ∈ m) → qs.foldl mapSet m = m := by
  intro qs
  induction qs with
  | nil => intro m _ _; rfl
  | cons q rest ih =>
    intro m hnd hsub
    rw [List.foldl_cons, mapSet_eq_self hnd (hsub q (List.mem_cons_self _ _))]
    exact ih m hnd (fun x hx => hsub x (List.mem_cons_of_mem _ hx))

theorem foldl_mapSet_keys : ∀ (ps acc : List Place),
    (keysOf ps).Nodup →
    keysOf (ps.foldl mapSet acc)
      = keysOf acc ++ (keysOf ps).filter (fun i => !decide (i ∈ keysOf acc)) := by
  intro ps
  induction ps with
  | nil => intro acc _; simp [keysOf_nil]
  | cons p rest ih =>
    intro acc hnd
    rw [keysOf_cons, List.nodup_cons] at hnd
    rw [List.foldl_cons, ih (mapSet acc p) hnd.2, keysOf_mapSet, keysOf_cons]
    by_cases hp : p.id ∈ keysOf acc
    · rw [if_pos hp]
      simp [List.filter_cons, hp]
    · rw [if_neg hp, List.filter_cons]
      have hfil : (keysOf rest).filter (fun i => !decide (i ∈ keysOf acc ++ [p.id]))
          = (keysOf rest).filter (fun i => !decide (i ∈ keysOf acc)) := by
        apply List.filter_congr
        intro i hi
        have : i ≠ p.id := fun he => hnd.1 (he ▸ hi)
        simp [List.mem_append, this]
      rw [hfil]
      simp [hp, List.append_assoc]

theorem foldl_mapSet_lookup : ∀ (ps acc : List Place) (i : String),
    (keysOf ps).Nodup →
    lookupId (ps.foldl mapSet acc) i
      = match lookupId ps i with
        | some q => some q
        | none => lookupId acc i := by
  intro ps
  induction ps with
  | nil => intro acc i _; rfl
  | cons p rest ih =>
    intro acc i hnd
    rw [keysOf_cons, List.nodup_cons] at hnd
    rw [List.foldl_cons, ih (mapSet acc p) i hnd.2, lookupId_cons]
    by_cases hi : i = p.id
    · rw [lookupId_eq_none_of_not_mem (hi ▸ hnd.1)]
      simp [hi, lookupId_mapSet]
    · have : p.id ≠ i := fun he => hi he.symm
      rw [if_neg this]
      rcases hrest : lookupId rest i with _ | q
      · simp [lookupId_mapSet, hi]
      · simp

/-! ## Claims -/

/-- Claim C9: `scoreBusiness` is a pure function; it leaves the input
record untouched (purity is inherent in the functional embedding, since
the source function performs no writes) and returns a record whose fields
are exactly those of the input plus a single added `score` field. -/
theorem claim_c9_pure (b : NormalizedRecord) :
    (scoreBusiness b).toNormalizedRecord = b ∧
    (scoreBusiness b).score = scoreVal b :=
  ⟨rfl, rfl⟩

/-- Claim C6: any place id that is empty or contains a character outside
the allow-list `[a-zA-Z0-9_-]` is rejected by `getPlaceDetails` before
the URL is used: the result is `null` and no network call is issued, for
every behaviour `net` of the network. -/
theorem claim_c6_reject (net : String → Option PlaceDetails) (pid : String)
    (h : pid = "" ∨ ∃ c ∈ pid.data, allowedIdChar c = false) :
    getPlaceDetails net pid = (none, 0) := by
  have hv : validPlaceId pid = false := by
    rcases h with h | ⟨c, hc, hbad⟩
    · rw [h]; rfl
    · have hall : pid.data.all allowedIdChar = false := by
        rcases hb : pid.data.all allowedIdChar with _ | _
        · rfl
        · exact absurd ((List.all_eq_true.mp hb) c hc) (by simp [hbad])
      simp [validPlaceId, hall]
  simp [getPlaceDetails, hv]

/-- Witness for C6: the malformed id abc/1 is rejected with no network
call, whatever the network would have answered. -/
theorem claim_c6_witness :
    getPlaceDetails (fun _ => none) "abc/1" = (none, 0) :=
  claim_c6_reject (fun _ => none) "abc/1" (Or.inr ⟨'/', by decide, by decide⟩)

/-- Claim C1: for cached and incoming entries with duplicate-free ids
(the invariant of cache entries and of API pages), the merge result
carries exactly the union of the ids, ordered with all cached places
first in their original order followed by the genuinely new incoming ids
in incoming order; on a shared id the incoming place wins; and
`nextPageToken` is always the incoming one. -/
theorem claim_c1_merge_union_order (cached incoming : PageEntry)
    (hc : (keysOf cached.places).Nodup) (hi : (keysOf incoming.places).Nodup) :
    keysOf (mergeBusinessData cached incoming).places
        = keysOf cached.places
          ++ (keysOf incoming.places).filter
              (fun i => !decide (i ∈ keysOf cached.places))
    ∧ (∀ i, i ∈ keysOf (mergeBusinessData cached incoming).places ↔
        i ∈ keysOf cached.places ∨ i ∈ keysOf incoming.places)
    ∧ (∀ i, lookupId (mergeBusinessData cached incoming).places i
        = match lookupId incoming.places i with
          | some q => some q
          | none => lookupId cached.places i)
    ∧ (mergeBusinessData cached incoming).nextPageToken
        = incoming.nextPageToken := by
  have hinner : cached.places.foldl mapSet [] = cached.places := by
    have := foldl_mapSet_append cached.places []
      (fun i _ hmem => by simp [keysOf_nil] at hmem) hc
    simpa using this
  have hplaces : (mergeBusinessData cached incoming).places
      = incoming.places.foldl mapSet cached.places := by
    simp [mergeBusinessData, hinner]
  refine ⟨?_, ?_, ?_, rfl⟩
  · rw [hplaces, foldl_mapSet_keys incoming.places cached.places hi]
  · intro i
    rw [hplaces, foldl_mapSet_keys incoming.places cached.places hi,
      List.mem_append, List.mem_filter]
    constructor
    · rintro (h | ⟨h, _⟩)
      · exact Or.inl h
      · exact Or.inr h
    · rintro (h | h)
      · exact Or.inl h
      · by_cases hmem : i ∈ keysOf cached.places
        · exact Or.inl hmem
        · exact Or.inr ⟨h, by simp [hmem]⟩
  · intro i
    rw [hplaces, foldl_mapSet_lookup incoming.places cached.places i hi]

/-- Witness for C1: a concrete merge with the overlapping id b; the
incoming version of b wins, order is cached-first, the token is the
incoming one. -/
theorem claim_c1_witness :
    keysOf (mergeBusinessData cachedEx incomingEx).places
        = keysOf cachedEx.places
          ++ (keysOf incomingEx.places).filter
              (fun i => !decide (i ∈ keysOf cachedEx.places))
    ∧ lookupId (mergeBusinessData cachedEx incomingEx).places "b"
        = (match lookupId incomingEx.places "b" with
          | some q => some q
          | none => lookupId cachedEx.places "b")
    ∧ (mergeBusinessData cachedEx incomingEx).nextPageToken
        = incomingEx.nextPageToken :=
  ⟨(claim_c1_merge_union_order cachedEx incomingEx (by decide) (by decide)).1,
   (claim_c1_merge_union_order cachedEx incomingEx (by decide) (by decide)).2.2.1 "b",
   (claim_c1_merge_union_order cachedEx incomingEx (by decide) (by decide)).2.2.2⟩

/-- Claim C7: merging a cache entry with itself returns the entry
unchanged (the places sequence is identical and the token is the one of
the most recent input, the entry itself), given the cache-entry
invariant that its place ids are duplicate-free. -/
theorem claim_c7_idempotent (e : PageEntry)
    (h : (keysOf e.places).Nodup) : mergeBusinessData e e = e := by
  have hinner : e.places.foldl mapSet [] = e.places := by
    have := foldl_mapSet_append e.places []
      (fun i _ hmem => by simp [keysOf_nil] at hmem) h
    simpa using this
  have houter : e.places.foldl mapSet e.places = e.places :=
    foldl_mapSet_self e.places e.places h (fun q hq => hq)
  cases e with
  | mk places tok =>
    simp only [mergeBusinessData] at *
    rw [hinner, houter]

/-- Witness for C7: a concrete two-place entry is unchanged by
self-merge. -/
theorem claim_c7_witness : mergeBusinessData cachedEx cachedEx = cachedEx :=
  claim_c7_idempotent cachedEx (by decide)

/-- Counterexample to C2 as stated: a single (cache-merged) response
carrying 61 distinct places drives the accumulated unique count to 61,
exceeding 60 — the loop checks the ceiling only after absorbing a whole
response, and `getBusinessData` returns the merged cache entry, which
can be arbitrarily large. -/
theorem claim_c2_counterexample :
    60 < (fetchLoop [bigResponse] []).1.length
    ∧ (keysOf (fetchLoop [bigResponse] []).1).Nodup := by
  constructor
  · set_option maxRecDepth 10000 in decide
  · set_option maxRecDepth 10000 in decide

/-- Claim C2, amended: the running unique count can exceed 60 by the
contents of the last absorbed response, but the loop issues no further
fetch once the count has reached 60 or the last response carried no
(truthy) `nextPageToken`: whenever a second fetch is issued after a
response, that response had a truthy token and the count after absorbing
it was below 60. -/
theorem claim_c2_amended (r : PageEntry) (rs : List PageEntry)
    (acc : List Place) (h : 1 < (fetchLoop (r :: rs) acc).2) :
    jsFalsy r.nextPageToken = false ∧ (absorb acc r.places).length < 60 := by
  cases hc : (jsFalsy r.nextPageToken
      || decide (60 ≤ (absorb acc r.places).length)) with
  | true =>
    rw [show fetchLoop (r :: rs) acc = (absorb acc r.places, 1) from by
      rw [fetchLoop]; simp [hc]] at h
    exact absurd h (by simp)
  | false =>
    rw [Bool.or_eq_false_iff] at hc
    refine ⟨hc.1, ?_⟩
    have h2 := hc.2
    simp only [decide_eq_false_iff_not, not_le] at h2
    exact h2

/-- Witness for C2 (amended): a two-response script where the second
fetch really happens; the first response had a truthy token and left the
count below 60. -/
theorem claim_c2_witness :
    jsFalsy pageEx1.nextPageToken = false
    ∧ (absorb [] pageEx1.places).length < 60 :=
  claim_c2_amended pageEx1 [pageEx2] [] (by decide)

theorem scoreVal_eq_closed (b : NormalizedRecord) :
    scoreVal b = (ratingOpt b).map
      (fun r => webBonus b + phoneBonus b + r + urtBonus b) := by
  rcases hpf : parseFloatJS b.rating with _ | r <;>
  rcases hpi : parseIntJS b.userRatingsTotal with _ | n <;>
  simp only [scoreVal, ratingOpt, webBonus, phoneBonus, urtBonus, hpf, hpi] <;>
  split_ifs <;>
  simp [Option.map]

/-- Claim C3: the score of a record is the sum of 2 for a truthy
non-sentinel website, 1 for a truthy non-sentinel phone, the parsed
rating when the rating branch is taken (the hypothesis excludes only the
`NaN` case of an unparseable rating string), and the ratings-count tier
(+2 above 100, +1 above 50); in particular the spec's example record
scores 7.5 and the all-sentinel record scores 0. -/
theorem claim_c3_score_formula :
    (∀ (b : NormalizedRecord) (r : ℚ), ratingOpt b = some r →
        scoreVal b = some (webBonus b + phoneBonus b + r + urtBonus b))
    ∧ scoreVal exampleRecord = some (15 / 2)
    ∧ scoreVal sentinelRecord = some 0 := by
  refine ⟨?_, ?_, by decide⟩
  · intro b r h
    rw [scoreVal_eq_closed, h, Option.map_some']
  · rw [scoreVal_eq_closed]
    have h1 : ratingOpt exampleRecord
        = some ((1 : ℚ) * (((4 : ℕ) : ℚ) + ((5 : ℕ) : ℚ) / (10 : ℚ) ^ (1 : ℕ))) :=
      rfl
    have h2 : webBonus exampleRecord = 0 := rfl
    have h3 : phoneBonus exampleRecord = 1 := rfl
    have h4 : urtBonus exampleRecord = 2 := rfl
    rw [h1, h2, h3, h4, Option.map_some']
    norm_num

/-- Witness for C3: the general formula applied to the all-sentinel
record, whose rating branch is untaken. -/
theorem claim_c3_witness :
    scoreVal sentinelRecord
      = some (webBonus sentinelRecord + phoneBonus sentinelRecord + 0
          + urtBonus sentinelRecord) :=
  claim_c3_score_formula.1 sentinelRecord 0 (by decide)

/-- Claim C8: the score is monotone in each contributing factor
independently: turning a sentinel website into a truthy non-sentinel one
adds exactly 2 (never decreasing the score), and raising
`userRatingsTotal` from 40 to 60 adds exactly 1 (never decreasing it);
the score hypotheses rule out only the `NaN` score of an unparseable
rating, which is unordered. -/
theorem claim_c8_monotone :
    (∀ (b : NormalizedRecord) (w : JVal) (q : ℚ),
        b.website = JVal.vstr "N/A" → truthy w = true → w ≠ JVal.vstr "N/A" →
        scoreVal b = some q →
        scoreVal { b with website := w } = some (q + 2) ∧ q ≤ q + 2)
    ∧ (∀ (b : NormalizedRecord) (q : ℚ),
        scoreVal { b with userRatingsTotal := JVal.vnum 40 } = some q →
        scoreVal { b with userRatingsTotal := JVal.vnum 60 } = some (q + 1)
          ∧ q ≤ q + 1) := by
  constructor
  · intro b w q hbw hw hwn hsq
    rw [scoreVal_eq_closed] at hsq
    rcases hro : ratingOpt b with _ | r
    · rw [hro] at hsq; simp at hsq
    · rw [hro, Option.map_some'] at hsq
      have hq := Option.some.inj hsq
      have hwb : webBonus b = 0 := by simp [webBonus, hbw]
      rw [hwb] at hq
      refine ⟨?_, by linarith⟩
      rw [scoreVal_eq_closed,
        show ratingOpt { b with website := w } = ratingOpt b from rfl, hro,
        Option.map_some']
      have hwb2 : webBonus { b with website := w } = 2 := by
        simp [webBonus, hw, hwn]
      have hpb : phoneBonus { b with website := w } = phoneBonus b := rfl
      have hub : urtBonus { b with website := w } = urtBonus b := rfl
      rw [hwb2, hpb, hub, ← hq]
      exact congrArg some (by ring)
  · intro b q hsq
    rw [scoreVal_eq_closed] at hsq
    rcases hro : ratingOpt { b with userRatingsTotal := JVal.vnum 40 } with _ | r
    · rw [hro] at hsq; simp at hsq
    · rw [hro, Option.map_some'] at hsq
      have hq := Option.some.inj hsq
      have h40 : urtBonus { b with userRatingsTotal := JVal.vnum 40 } = 0 := by
        rw [show urtBonus { b with userRatingsTotal := JVal.vnum 40 }
          = urtBonus { sentinelRecord with userRatingsTotal := JVal.vnum 40 }
          from rfl]
        decide
      have h60 : urtBonus { b with userRatingsTotal := JVal.vnum 60 } = 1 := by
        rw [show urtBonus { b with userRatingsTotal := JVal.vnum 60 }
          = urtBonus { sentinelRecord with userRatingsTotal := JVal.vnum 60 }
          from rfl]
        decide
      rw [h40] at hq
      refine ⟨?_, by linarith⟩
      rw [scoreVal_eq_closed,
        show ratingOpt { b with userRatingsTotal := JVal.vnum 60 }
          = ratingOpt { b with userRatingsTotal := JVal.vnum 40 } from rfl,
        hro, Option.map_some']
      have e1 : webBonus { b with userRatingsTotal := JVal.vnum 60 }
          = webBonus { b with userRatingsTotal := JVal.vnum 40 } := rfl
      have e2 : phoneBonus { b with userRatingsTotal := JVal.vnum 60 }
          = phoneBonus { b with userRatingsTotal := JVal.vnum 40 } := rfl
      rw [e1, e2, h60, ← hq]
      exact congrArg some (by ring)

/-- Witness for C8: both monotonicity parts applied to the all-sentinel
record (score 0): adding a website reaches 0 + 2, going from 40 to 60
user ratings reaches 0 + 1. -/
theorem claim_c8_witness :
    (scoreVal { sentinelRecord with website := JVal.vstr "x" } = some (0 + 2)
      ∧ (0 : ℚ) ≤ 0 + 2)
    ∧ (scoreVal { sentinelRecord with userRatingsTotal := JVal.vnum 60 }
        = some (0 + 1) ∧ (0 : ℚ) ≤ 0 + 1) :=
  ⟨claim_c8_monotone.1 sentinelRecord (JVal.vstr "x") 0 rfl (by decide)
      (by decide) (by decide),
   claim_c8_monotone.2 sentinelRecord 0 (by decide)⟩

/-- Counterexample to C4 as stated: a detail record whose rating is the
literal string N/A is truthy, so the code takes it in preference to the
raw-search rating 4.0; the claim's resolution order (detail only if
present *and not the sentinel*) would instead yield the raw 4.0. -/
theorem claim_c4_counterexample :
    (cleanFields (rawWithRating "p1" "4.0") (some sentinelDetail)).rating
        = JVal.vstr "N/A"
    ∧ (cleanFields (rawWithRating "p1" "4.0") (some sentinelDetail)).rating
        ≠ JVal.vstr "4.0" := by
  exact ⟨by decide, by decide⟩

/-- Claim C4, amended: each output field independently resolves to the
detail value if truthy (present and non-empty/non-zero), else the
raw-search value if truthy (for the fields that have one), else the
sentinel N/A; the code does not special-case a detail value equal to the
sentinel.  In particular detail rating 4.2 beats raw rating 4.0. -/
theorem claim_c4_amended :
    (∀ (raw : Place) (pd : Option PlaceDetails),
      (truthy (dget pd PlaceDetails.rating) = true →
          (cleanFields raw pd).rating = dget pd PlaceDetails.rating)
      ∧ (truthy (dget pd PlaceDetails.rating) = false →
          truthy raw.rating = true →
          (cleanFields raw pd).rating = raw.rating)
      ∧ (truthy (dget pd PlaceDetails.rating) = false →
          truthy raw.rating = false →
          (cleanFields raw pd).rating = JVal.vstr "N/A")
      ∧ (truthy (dget pd PlaceDetails.internationalPhoneNumber) = true →
          (cleanFields raw pd).phone
            = dget pd PlaceDetails.internationalPhoneNumber)
      ∧ (truthy (dget pd PlaceDetails.internationalPhoneNumber) = false →
          (cleanFields raw pd).phone = JVal.vstr "N/A")
      ∧ (truthy (dget pd PlaceDetails.websiteUri) = true →
          (cleanFields raw pd).website = dget pd PlaceDetails.websiteUri)
      ∧ (truthy (dget pd PlaceDetails.websiteUri) = false →
          (cleanFields raw pd).website = JVal.vstr "N/A")
      ∧ (truthy (dget pd PlaceDetails.userRatingCount) = true →
          (cleanFields raw pd).userRatingsTotal
            = dget pd PlaceDetails.userRatingCount)
      ∧ (truthy (dget pd PlaceDetails.userRatingCount) = false →
          truthy raw.userRatingCount = true →
          (cleanFields raw pd).userRatingsTotal = raw.userRatingCount)
      ∧ (truthy (dget pd PlaceDetails.userRatingCount) = false →
          truthy raw.userRatingCount = false →
          (cleanFields raw pd).userRatingsTotal = JVal.vstr "N/A"))
    ∧ (cleanFields (rawWithRating "p2" "4.0") (some detailEx)).rating
        = JVal.vstr "4.2" := by
  constructor
  · intro raw pd
    refine ⟨?_, ?_, ?_, ?_, ?_, ?_, ?_, ?_, ?_, ?_⟩ <;> intro h1 <;>
      first
        | (intro h2; simp [cleanFields, jor, h1, h2])
        | simp [cleanFields, jor, h1]
  · decide

/-- Witness for C4 (amended): a truthy detail rating wins over the raw
one. -/
theorem claim_c4_witness :
    (cleanFields (rawWithRating "p3" "4.0") (some detailEx)).rating
      = dget (some detailEx) PlaceDetails.rating :=
  (claim_c4_amended.1 (rawWithRating "p3" "4.0") (some detailEx)).1 (by decide)

/-- Counterexample to C5 as stated: the code tests `startsWith` on the
two-character plus-one (no trailing space) and drops three characters,
so the phone +1415, which does not carry a plus-one-space country-code
prefix and should be written unchanged under the claim, is mangled to
15. -/
theorem claim_c5_counterexample :
    exportPhone "+1415" = "15" ∧ exportPhone "+1415" ≠ "+1415" := by
  exact ⟨by decide, by decide⟩

theorem dropWhile_eq_self_of_all {p : Char → Bool} :
    ∀ (l : List Char), (∀ c ∈ l, p c = false) → l.dropWhile p = l := by
  intro l h
  cases l with
  | nil => rfl
  | cons a l => simp [List.dropWhile_cons, h a (List.mem_cons_self _ _)]

/-- Claim C5, amended: a phone that starts with the two characters
plus-one is written with its first three characters removed and the
remainder whitespace-trimmed (so a true plus-one-space prefix is
stripped exactly); any other phone is written unchanged; in particular
the two spec examples hold. -/
theorem claim_c5_amended :
    (∀ r : String, (∀ c ∈ r.data, isWhite c = false) →
        exportPhone ("+1 " ++ r) = r)
    ∧ (∀ s : String, strStartsWith s "+1" = false → exportPhone s = s)
    ∧ exportPhone "+1 555-1212" = "555-1212"
    ∧ exportPhone "555-1212" = "555-1212" := by
  refine ⟨?_, ?_, by decide, by decide⟩
  · intro r h
    have hdata : ("+1 " ++ r).data = '+' :: '1' :: ' ' :: r.data := rfl
    have hstart : strStartsWith ("+1 " ++ r) "+1" = true := rfl
    rw [exportPhone, if_pos hstart]
    have hdrop : strDrop 3 ("+1 " ++ r) = String.mk r.data := rfl
    rw [hdrop, strTrim]
    have h1 : (String.mk r.data).data = r.data := rfl
    rw [h1, dropWhile_eq_self_of_all r.data h,
      dropWhile_eq_self_of_all r.data.reverse
        (fun c hc => h c (List.mem_reverse.mp hc)),
      List.reverse_reverse]
  · intro s hs
    rw [exportPhone, if_neg (by simp [hs])]

/-- Witness for C5 (amended): stripping the plus-one-space prefix from a
whitespace-free remainder. -/
theorem claim_c5_witness :
    exportPhone ("+1 " ++ "555-1212") = "555-1212" :=
  claim_c5_amended.1 "555-1212" (by decide)

/-- Claim C10 (implicit): when the per-id cache has no file for a place
and the detail lookup fails (yielding `null`), `cleanBusinessData`
writes that `null` to the cache file unconditionally; every later call
for the same id reads the cached `null`, issues no network call and
changes nothing, and its record carries the sentinel for phone and
website while name, address, rating and ratings count fall back to the
raw search values (sentinel when those are falsy). -/
theorem claim_c10_cached_null (cache : DetailCache)
    (net : String → Option PlaceDetails) (b : Place)
    (h1 : cache b.id = none)
    (h2 : (getPlaceDetails net b.id).1 = none) :
    (cleanBusinessData cache net b).cache b.id = some none
    ∧ ∀ (net2 : String → Option PlaceDetails) (b2 : Place), b2.id = b.id →
        (cleanBusinessData (cleanBusinessData cache net b).cache net2 b2).netCalls
            = 0
        ∧ (cleanBusinessData (cleanBusinessData cache net b).cache net2 b2).cache
            = (cleanBusinessData cache net b).cache
        ∧ (cleanBusinessData (cleanBusinessData cache net b).cache net2 b2).record.phone
            = JVal.vstr "N/A"
        ∧ (cleanBusinessData (cleanBusinessData cache net b).cache net2 b2).record.website
            = JVal.vstr "N/A"
        ∧ (cleanBusinessData (cleanBusinessData cache net b).cache net2 b2).record.name
            = jor b2.displayNameText (JVal.vstr "N/A")
        ∧ (cleanBusinessData (cleanBusinessData cache net b).cache net2 b2).record.address
            = jor b2.formattedAddress (JVal.vstr "N/A")
        ∧ (cleanBusinessData (cleanBusinessData cache net b).cache net2 b2).record.rating
            = jor b2.rating (JVal.vstr "N/A")
        ∧ (cleanBusinessData (cleanBusinessData cache net b).cache net2 b2).record.userRatingsTotal
            = jor b2.userRatingCount (JVal.vstr "N/A") := by
  have hstep : cleanBusinessData cache net b
      = { record := cleanFields b none
          cache := fun k => if k = b.id then some none else cache k
          netCalls := (getPlaceDetails net b.id).2 } := by
    simp only [cleanBusinessData, h1, h2]
  have hcache1 : (cleanBusinessData cache net b).cache b.id = some none := by
    rw [hstep]; simp
  refine ⟨hcache1, ?_⟩
  intro net2 b2 hb2
  have hcb2 : (cleanBusinessData cache net b).cache b2.id = some none := by
    rw [hb2]; exact hcache1
  have hstep2 : ∀ (c1 : DetailCache), c1 b2.id = some none →
      cleanBusinessData c1 net2 b2
        = { record := cleanFields b2 none, cache := c1, netCalls := 0 } := by
    intro c1 hc1
    simp only [cleanBusinessData, hc1]
  rw [hstep2 _ hcb2]
  refine ⟨rfl, rfl, ?_, ?_, ?_, ?_, ?_, ?_⟩ <;>
    simp [cleanFields, dget, jor_vnull]

/-- Witness for C10: an empty cache and an always-failing network; the
`null` is cached and the second call issues no network call. -/
theorem claim_c10_witness :
    (cleanBusinessData (fun _ => none) (fun _ => none) (bareRaw "pl1")).cache "pl1"
        = some none
    ∧ (cleanBusinessData
        ((cleanBusinessData (fun _ => none) (fun _ => none) (bareRaw "pl1")).cache)
        (fun _ => none) (bareRaw "pl1")).netCalls = 0 :=
  ⟨(claim_c10_cached_null (fun _ => none) (fun _ => none) (bareRaw "pl1")
      rfl rfl).1,
   ((claim_c10_cached_null (fun _ => none) (fun _ => none) (bareRaw "pl1")
      rfl rfl).2 (fun _ => none) (bareRaw "pl1") rfl).1⟩

end BizTool
